import Mathlib

/-!
Verification of the log-buffering and batched-flush subsystem of the
EigenDA data-availability adapter, shallowly embedded from
`src/packages/adapter-eigenda/src/EigenDAAdapter.js`.

Modelling choices:
* Caller payloads (`data`, `metadata`) are opaque to the adapter; they are
  modelled as `String`s.  `log()`'s `message` field is the serialized form of
  the payload (`typeof data === 'object' ? JSON.stringify(data) : String(data)`),
  which for an opaque payload is the payload itself.
* `Date.now()` is an external clock; each operation takes the observed clock
  values as explicit `Nat` parameters.
* The remote client's `upload` is an external collaborator.  One flush performs
  one upload; its outcome is a parameter `outcome : Option String`:
  `some jobId` models a normal return carrying `job_id`, `none` models either a
  thrown error or a result without `job_id` (both reach the same `catch`).
* `async`/`await` interleaving: the JS `flush` suspends at its `await`s, during
  which concurrent `log()` calls may append records to `logBuffer` and register
  resolvers in `pendingLogs`.  `flushCore` takes those interleaved records as
  the explicit parameter `interim` (the content of `this.logBuffer` at the
  time line 162 or line 145 executes).  The sequential trace semantics `run`
  interleaves nothing and passes `[]`.
* Promises: each `log()` registers a resolver in the `pendingLogs` map.  A
  resolver is identified by the ghost serial number `serial` (closure
  identity); resolution of a promise is recorded as an `Event.resolve` in an
  observable trace.  The ghost counter `nextSerial` on the adapter state only
  numbers the resolvers and affects no observable behaviour.
-/

namespace EigenDA

/-- Log levels (`'info' | 'warn' | 'error' | 'debug'`). -/
inductive Level where
  | info
  | warn
  | error
  | debug
deriving DecidableEq, Repr

/-- `DALogOptions` as used by the adapter: an optional level, opaque metadata,
and tags. -/
structure LogOptions where
  level : Option Level := none
  metadata : Option String := none
  tags : Option (List String) := none
deriving DecidableEq, Repr

/-- A buffered record, `{...entry, tempId}` as pushed on `logBuffer`
(lines 69-85).  `serial` is ghost state identifying the resolver registered
in `pendingLogs` for this record. -/
structure BufEntry where
  level : Level
  message : String
  timestamp : Nat
  metadata : Option String
  data : String
  options : Option LogOptions
  tempId : String
  serial : Nat
deriving DecidableEq, Repr

/-- The serialized form of a record inside the uploaded batch: the projection
taken by `logsToFlush.map(...)` on lines 116-123 (drops `tempId`). -/
structure SRecord where
  level : Level
  message : String
  timestamp : Nat
  metadata : Option String
  data : String
  options : Option LogOptions
deriving DecidableEq, Repr

/-- The `daStatus` object built on lines 136-143:
`{type: 'eigenda', data: {jobId, status: 'PENDING'}, timestamp: Date.now()}`
(flattened). -/
structure DAStatus where
  type : String
  jobId : String
  status : String
  timestamp : Nat
deriving DecidableEq, Repr

/-- The `DALogEntry` value a pending promise is resolved with (lines 148-154). -/
structure DALogEntry where
  id : String
  content : String
  timestamp : Nat
  status : DAStatus
  options : Option LogOptions
deriving DecidableEq, Repr

/-- The adapter's instance fields (constructor, lines 6-19).  `flushTimer` is
the timer handle, modelled as "a timer is installed".  `nextSerial` is ghost
(see module comment). -/
structure Adapter where
  logBuffer : List BufEntry
  isInitialized : Bool
  pendingLogs : List (String × Nat)
  flushTimer : Bool
  flushInterval : Nat
  maxBufferSize : Nat
  waitForConfirmation : Bool
  nextSerial : Nat
deriving DecidableEq, Repr

/-- `EigenDAAdapterConfig` (the fields the buffering core reads; the
client-connection fields are consumed by the external collaborator). -/
structure Config where
  flushInterval : Option Nat := none
  maxBufferSize : Option Nat := none
  waitForConfirmation : Bool := false
deriving DecidableEq, Repr

/-- JS `x || d` for a possibly-absent numeric config value: `undefined` and the
falsy `0` both fall back to the default. -/
def orDefault (v : Option Nat) (d : Nat) : Nat :=
  match v with
  | none => d
  | some 0 => d
  | some n => n

/-- The constructor (lines 6-19): empty buffer, not initialized, empty
`pendingLogs`, no timer, defaults `flushInterval = 10000`,
`maxBufferSize = 1000`. -/
def mkAdapter (cfg : Config) : Adapter :=
  { logBuffer := []
    isInitialized := false
    pendingLogs := []
    flushTimer := false
    flushInterval := orDefault cfg.flushInterval 10000
    maxBufferSize := orDefault cfg.maxBufferSize 1000
    waitForConfirmation := cfg.waitForConfirmation
    nextSerial := 0 }

/-- `initialize()` (lines 23-45): no-op when already initialized; otherwise the
identifier/balance bootstrap is delegated to the external collaborator
(modelled as succeeding), the flush timer is started and the flag set. -/
def initAdapter (s : Adapter) : Adapter :=
  if s.isInitialized then s
  else { s with flushTimer := true, isInitialized := true }

/-- JS `Map.get`. -/
def mapGet (m : List (String × Nat)) (k : String) : Option Nat :=
  (m.find? (fun p => p.1 == k)).map (fun p => p.2)

/-- JS `Map.set`.  A real `Map.set` keeps an existing key at its original
position; no operation of this program observes map order (only `get`,
`set` and `delete` are used), so re-inserting at the end is observationally
equivalent and keeps keys unique. -/
def mapSet (m : List (String × Nat)) (k : String) (v : Nat) : List (String × Nat) :=
  m.filter (fun p => p.1 != k) ++ [(k, v)]

/-- JS `Map.delete`. -/
def mapDel (m : List (String × Nat)) (k : String) : List (String × Nat) :=
  m.filter (fun p => p.1 != k)

/-- Observable events of one execution: upload outcomes (with the serialized
batch) and promise resolutions. -/
inductive Event where
  | submitSuccess (payload : List SRecord) (jobId : String)
  | submitFail (payload : List SRecord)
  | resolve (serial : Nat) (tempId : String) (entry : DALogEntry)
deriving DecidableEq, Repr

/-- The per-record projection used to build `batchedLogs.logs` (lines 116-123). -/
def serializeRecord (l : BufEntry) : SRecord :=
  { level := l.level
    message := l.message
    timestamp := l.timestamp
    metadata := l.metadata
    data := l.data
    options := l.options }

/-- The `DALogEntry` a resolver is called with (lines 148-154), including the
`daStatus` of lines 136-143; `now2` is the `Date.now()` of line 142. -/
def mkResolved (jobId : String) (now2 : Nat) (l : BufEntry) : DALogEntry :=
  { id := jobId
    content := l.data
    timestamp := l.timestamp
    status := { type := "eigenda", jobId := jobId, status := "PENDING", timestamp := now2 }
    options := l.options }

/-- The resolution loop of lines 145-157: for each flushed record, look its
`tempId` up in `pendingLogs`; if present, resolve that promise and delete the
entry.  Returns the final map and the resolution events in loop order. -/
def resolveLoop (jobId : String) (now2 : Nat) :
    List BufEntry → List (String × Nat) → List (String × Nat) × List Event
  | [], pending => (pending, [])
  | l :: rest, pending =>
    match mapGet pending l.tempId with
    | some serial =>
      let r := resolveLoop jobId now2 rest (mapDel pending l.tempId)
      (r.1, Event.resolve serial l.tempId (mkResolved jobId now2 l) :: r.2)
    | none => resolveLoop jobId now2 rest pending

/-- `flush()` (lines 108-164).  `outcome` is the upload outcome (see module
comment), `now2` the `Date.now()` of line 142, `interim` the records appended
to `logBuffer` by `log()` calls interleaved during the `await`s (together with
their `pendingLogs` registrations; the sequential semantics passes `[]`).
On failure the whole `try` body's error lands in the `catch` of lines 159-163:
the error is logged and the drained records are put back at the head of the
buffer (`[...logsToFlush, ...this.logBuffer]`). -/
def flushCore (outcome : Option String) (now2 : Nat) (interim : List BufEntry)
    (s : Adapter) : Adapter × List Event :=
  if s.logBuffer.isEmpty then (s, [])
  else
    let logsToFlush := s.logBuffer
    let payload := logsToFlush.map serializeRecord
    let pending1 := interim.foldl (fun m e => mapSet m e.tempId e.serial) s.pendingLogs
    match outcome with
    | some jobId =>
      let r := resolveLoop jobId now2 logsToFlush pending1
      ({ s with logBuffer := interim, pendingLogs := r.1 },
        Event.submitSuccess payload jobId :: r.2)
    | none =>
      ({ s with logBuffer := logsToFlush ++ interim, pendingLogs := pending1 },
        [Event.submitFail payload])

/-- The promise returned by `flush()`: the `catch` on lines 159-163 wraps the
entire `try` body (and the code before the `try` cannot throw), so this promise
never rejects. -/
def flush (outcome : Option String) (now2 : Nat) (interim : List BufEntry)
    (s : Adapter) : Except String (Adapter × List Event) :=
  Except.ok (flushCore outcome now2 interim s)

/-- `shutdown()` (lines 55-61): clear the flush timer, then one `await flush()`. -/
def shutdownCore (outcome : Option String) (now2 : Nat) (s : Adapter) :
    Adapter × List Event :=
  flushCore outcome now2 [] { s with flushTimer := false }

/-- The promise returned by `shutdown()`: it rejects only if the awaited
`flush()` rejects, which never happens. -/
def shutdown (outcome : Option String) (now2 : Nat) (s : Adapter) :
    Except String (Adapter × List Event) :=
  Except.ok (shutdownCore outcome now2 s)

/-- The `entry` built on lines 69-76 together with `tempId` (line 78) and the
ghost resolver serial. -/
def mkBufEntry (data : String) (options : Option LogOptions) (now : Nat)
    (tempId : String) (serial : Nat) : BufEntry :=
  { level := (options.bind (fun o => o.level)).getD Level.info
    message := data
    timestamp := now
    metadata := options.bind (fun o => o.metadata)
    data := data
    options := options
    tempId := tempId
    serial := serial }

/-- The buffering step of `log()` (lines 69-85): build the entry, register a
resolver for the returned promise under the fresh `tempId`
(`temp-${Date.now()}-${this.logBuffer.length + 1}`), and push the record. -/
def logPush (data : String) (options : Option LogOptions) (now : Nat)
    (s : Adapter) : Adapter :=
  let tempId := "temp-" ++ toString now ++ "-" ++ toString (s.logBuffer.length + 1)
  { s with
    pendingLogs := mapSet s.pendingLogs tempId s.nextSerial
    nextSerial := s.nextSerial + 1
    logBuffer := s.logBuffer ++ [mkBufEntry data options now tempId s.nextSerial] }

/-- `log()` (lines 65-91): throws when not initialized, before any buffering;
otherwise buffers the record and forces a flush when the buffer has reached
`maxBufferSize` (awaited before `log` returns).  The returned triple is
(new state, serial of the returned promise, emitted events). -/
def log (data : String) (options : Option LogOptions) (now : Nat)
    (outcome : Option String) (now2 : Nat) (s : Adapter) :
    Except String (Adapter × Nat × List Event) :=
  if s.isInitialized then
    let s1 := logPush data options now s
    if s1.maxBufferSize ≤ s1.logBuffer.length then
      let r := flushCore outcome now2 [] s1
      Except.ok (r.1, s.nextSerial, r.2)
    else
      Except.ok (s1, s.nextSerial, [])
  else
    Except.error "Adapter not initialized. Call initialize() first."

/-- One externally triggered operation of the sequential semantics, carrying
the clock values and upload outcomes it observes. -/
inductive Op where
  | logOp (data : String) (options : Option LogOptions) (now : Nat)
      (outcome : Option String) (now2 : Nat)
  | flushOp (outcome : Option String) (now2 : Nat)
  | shutdownOp (outcome : Option String) (now2 : Nat)
deriving DecidableEq, Repr

/-- Apply one operation.  A thrown error leaves the adapter state unchanged
(`log` throws before mutating anything) and emits no events. -/
def applyOp (s : Adapter) (op : Op) : Adapter × List Event :=
  match op with
  | .logOp d o now outc now2 =>
    match log d o now outc now2 s with
    | .ok (s', _, evs) => (s', evs)
    | .error _ => (s, [])
  | .flushOp outc now2 =>
    match flush outc now2 [] s with
    | .ok (s', evs) => (s', evs)
    | .error _ => (s, [])
  | .shutdownOp outc now2 =>
    match shutdown outc now2 s with
    | .ok (s', evs) => (s', evs)
    | .error _ => (s, [])

/-- Sequential execution: apply the operations in order, concatenating the
event traces. -/
def run (s : Adapter) : List Op → Adapter × List Event
  | [] => (s, [])
  | op :: ops =>
    let r := applyOp s op
    let r2 := run r.1 ops
    (r2.1, r.2 ++ r2.2)

/-- Serials of the resolution events of a trace. -/
def evSerials (tr : List Event) : List Nat :=
  tr.filterMap (fun e =>
    match e with
    | .resolve serial _ _ => some serial
    | _ => none)

/-- Number of submit attempts (successes and failures) in a trace. -/
def submitCount (tr : List Event) : Nat :=
  (tr.filter (fun e =>
    match e with
    | .submitSuccess _ _ => true
    | .submitFail _ => true
    | _ => false)).length

/-- Whether an operation's embedded upload outcome is a success. -/
def opSuccess : Op → Bool
  | .logOp _ _ _ outc _ => outc.isSome
  | .flushOp outc _ => outc.isSome
  | .shutdownOp outc _ => outc.isSome

/-- Every resolution in the trace carries DA status `"PENDING"`. -/
def resolvesAllPending (tr : List Event) : Bool :=
  tr.all (fun e =>
    match e with
    | .resolve _ _ entry => entry.status.status == "PENDING"
    | _ => true)

/-! ### Retrieval: `get` and `getLogEntry`

The stored payloads and the values JavaScript manipulates after `JSON.parse`
are modelled by the JSON value type `JVal`.  `undefined` (an absent property,
a failed lookup) is modelled by `Option.none`. -/

/-- JSON values. -/
inductive JVal where
  | null
  | bool (b : Bool)
  | num (n : Nat)
  | str (s : String)
  | arr (xs : List JVal)
  | obj (fields : List (String × JVal))

/-- Property access `v[k]`: `undefined` (`none`) unless `v` is an object with
field `k`. -/
def getField (v : JVal) (k : String) : Option JVal :=
  match v with
  | .obj fields => (fields.find? (fun p => p.1 == k)).map (fun p => p.2)
  | _ => none

/-- JS falsiness of a defined value (`null`, `''`, `0`, `false`). -/
def jsFalsy : JVal → Bool
  | .null => true
  | .bool b => !b
  | .num n => n == 0
  | .str s => s.isEmpty
  | _ => false

/-- `Array.isArray(x)` on a possibly-undefined value. -/
def isArrB : Option JVal → Bool
  | some (.arr _) => true
  | _ => false

/-- `x === 'log_batch'` on a possibly-undefined value. -/
def isLogBatchType : Option JVal → Bool
  | some (.str s) => s == "log_batch"
  | _ => false

mutual
/-- JS `String(v)` (array elements render `null`/empty as `""`, per
`Array.prototype.toString`). -/
def jsString : JVal → String
  | .null => "null"
  | .bool b => cond b "true" "false"
  | .num n => toString n
  | .str s => s
  | .arr xs => String.intercalate "," (jsStringList xs)
  | .obj _ => "[object Object]"

def jsStringList : List JVal → List String
  | [] => []
  | .null :: rest => "" :: jsStringList rest
  | v :: rest => jsString v :: jsStringList rest
end

/-- `get(jobId)` (lines 257-270): retrieve, `JSON.parse`, return
`parsedData.data`; any retrieval or parse error is caught and yields `null`.
The parameter `retrieve` combines `client.retrieve` and the `JSON.parse` of
line 263: `none` models a retrieval failure, not-found, or unparsable data
(all reach the `catch`). -/
def get (retrieve : String → Option JVal) (jobId : String) : Option JVal :=
  match retrieve jobId with
  | none => none
  | some parsedData => getField parsedData "data"

/-- The result object of `getLogEntry` (lines 297-331), with the constant
status fields flattened.  Properties read from possibly-missing fields are
`Option`s. -/
structure GotEntry where
  id : String
  content : Option JVal
  timestamp : Option JVal
  statusType : String
  statusJobId : String
  statusStatus : String
  statusTimestamp : Option JVal
  options : Option JVal

/-- The `{level, metadata, tags}` options object built on lines 326-330.
A JS object literal lists a property whose value is `undefined`; such a
property is indistinguishable from an absent one for every read, so it is
modelled as absent. -/
def singleOptions (parsedData : JVal) : JVal :=
  JVal.obj
    ((match getField parsedData "level" with
      | some v => [("level", v)]
      | none => []) ++
     (match getField parsedData "metadata" with
      | some v => [("metadata", v)]
      | none => []) ++
     (match getField parsedData "tags" with
      | some v => [("tags", v)]
      | none => []))

/-- `getLogEntry(id)` (lines 286-337).  `jparse` models the `JSON.parse` of
line 313 (`none` = parse error).  Every thrown error is caught on lines
333-336 and yields `null`; in particular `batchedData.logs[0]` being
`undefined` (empty `logs`) or `null` makes the property accesses on lines
299-309 throw. -/
def getLogEntry (retrieve : String → Option JVal) (jparse : String → Option JVal)
    (id : String) : Option GotEntry :=
  match get retrieve id with
  | none => none
  | some data =>
    if jsFalsy data then none
    else if isLogBatchType (getField data "type") && isArrB (getField data "logs") then
      match getField data "logs" with
      | some (.arr (JVal.null :: _)) => none
      | some (.arr (l :: _)) =>
        some
          { id := id
            content := getField l "data"
            timestamp := getField l "timestamp"
            statusType := "eigenda"
            statusJobId := id
            statusStatus := "PENDING"
            statusTimestamp := getField l "timestamp"
            options := getField l "options" }
      | _ => none
    else
      match jparse (jsString data) with
      | none => none
      | some JVal.null => none
      | some parsedData =>
        some
          { id := id
            content := getField parsedData "data"
            timestamp := getField parsedData "timestamp"
            statusType := "eigenda"
            statusJobId := id
            statusStatus := "PENDING"
            statusTimestamp := getField parsedData "timestamp"
            options := some (singleOptions parsedData) }

/-- Rendering of a log level into the uploaded JSON. -/
def levelStr : Level → String
  | .info => "info"
  | .warn => "warn"
  | .error => "error"
  | .debug => "debug"

/-- JSON form of a `DALogOptions` value inside the uploaded batch
(`JSON.stringify` drops properties whose value is `undefined`). -/
def optionsJson (o : LogOptions) : JVal :=
  JVal.obj
    ((match o.level with
      | some l => [("level", JVal.str (levelStr l))]
      | none => []) ++
     (match o.metadata with
      | some m => [("metadata", JVal.str m)]
      | none => []) ++
     (match o.tags with
      | some ts => [("tags", JVal.arr (ts.map JVal.str))]
      | none => []))

/-- JSON form of one serialized record inside `batchedLogs.logs`
(lines 116-123). -/
def recordJson (r : SRecord) : JVal :=
  JVal.obj
    ([("level", JVal.str (levelStr r.level)),
      ("message", JVal.str r.message),
      ("timestamp", JVal.num r.timestamp)] ++
     (match r.metadata with
      | some m => [("metadata", JVal.str m)]
      | none => []) ++
     [("data", JVal.str r.data)] ++
     (match r.options with
      | some o => [("options", optionsJson o)]
      | none => []))

/-- The `batchedLogs` object uploaded by `flush()` (lines 115-126):
`{logs: [...], timestamp: Date.now(), type: 'log_batch'}`.  Note that it has
no `data` property. -/
def batchJson (payload : List SRecord) (now : Nat) : JVal :=
  JVal.obj
    [("logs", JVal.arr (payload.map recordJson)),
     ("timestamp", JVal.num now),
     ("type", JVal.str "log_batch")]

/-! ### Basic lemmas about `flushCore` -/

theorem flushCore_empty (outc : Option String) (now2 : Nat) (interim : List BufEntry)
    (s : Adapter) (h : s.logBuffer = []) :
    flushCore outc now2 interim s = (s, []) := by
  simp [flushCore, h]

theorem flushCore_fail (now2 : Nat) (interim : List BufEntry) (s : Adapter)
    (h : s.logBuffer ≠ []) :
    flushCore none now2 interim s =
      ({ s with
          logBuffer := s.logBuffer ++ interim,
          pendingLogs :=
            interim.foldl (fun m e => mapSet m e.tempId e.serial) s.pendingLogs },
        [Event.submitFail (s.logBuffer.map serializeRecord)]) := by
  simp [flushCore, h]

theorem flushCore_succ (jobId : String) (now2 : Nat) (interim : List BufEntry)
    (s : Adapter) (h : s.logBuffer ≠ []) :
    flushCore (some jobId) now2 interim s =
      ({ s with
          logBuffer := interim,
          pendingLogs :=
            (resolveLoop jobId now2 s.logBuffer
              (interim.foldl (fun m e => mapSet m e.tempId e.serial) s.pendingLogs)).1 },
        Event.submitSuccess (s.logBuffer.map serializeRecord) jobId ::
          (resolveLoop jobId now2 s.logBuffer
            (interim.foldl (fun m e => mapSet m e.tempId e.serial) s.pendingLogs)).2) := by
  simp [flushCore, h]

theorem flushCore_fields (outc : Option String) (now2 : Nat) (interim : List BufEntry)
    (s : Adapter) :
    (flushCore outc now2 interim s).1.isInitialized = s.isInitialized ∧
    (flushCore outc now2 interim s).1.flushTimer = s.flushTimer ∧
    (flushCore outc now2 interim s).1.maxBufferSize = s.maxBufferSize ∧
    (flushCore outc now2 interim s).1.waitForConfirmation = s.waitForConfirmation ∧
    (flushCore outc now2 interim s).1.nextSerial = s.nextSerial := by
  unfold flushCore
  split
  · exact ⟨rfl, rfl, rfl, rfl, rfl⟩
  · cases outc <;> exact ⟨rfl, rfl, rfl, rfl, rfl⟩

theorem submitCount_resolveLoop (jobId : String) (now2 : Nat) (logs : List BufEntry)
    (pending : List (String × Nat)) :
    submitCount (resolveLoop jobId now2 logs pending).2 = 0 := by
  induction logs generalizing pending with
  | nil => rfl
  | cons l rest ih =>
    unfold resolveLoop
    cases h : mapGet pending l.tempId with
    | none => exact ih pending
    | some serial => simpa [submitCount, List.filter] using ih (mapDel pending l.tempId)

/-! ### Claim C1 -/

/-- Claim C1 (amended): for every `shutdown()` call the flush timer is stopped
and exactly one flush call is made before shutdown returns (performing one
submit attempt exactly when records are buffered); but a failing submit is
caught inside `flush()` — the drained records are requeued — and `shutdown()`
returns normally, so the error is NOT surfaced to the caller. -/
theorem resolveLoop_mem (jobId : String) (now2 : Nat) (logs : List BufEntry)
    (pending : List (String × Nat)) :
    ∀ ev ∈ (resolveLoop jobId now2 logs pending).2,
      ∃ l serial, l ∈ logs ∧ ev = Event.resolve serial l.tempId (mkResolved jobId now2 l) := by
  induction logs generalizing pending with
  | nil => intro ev hv; simp [resolveLoop] at hv
  | cons l rest ih =>
    intro ev hv
    unfold resolveLoop at hv
    cases hm : mapGet pending l.tempId with
    | none =>
      rw [hm] at hv
      obtain ⟨l', s', hl', he⟩ := ih pending ev hv
      exact ⟨l', s', List.mem_cons_of_mem _ hl', he⟩
    | some serial =>
      rw [hm] at hv
      simp only [List.mem_cons] at hv
      rcases hv with he | hv
      · exact ⟨l, serial, List.mem_cons_self _ _, he⟩
      · obtain ⟨l', s', hl', he⟩ := ih (mapDel pending l.tempId) ev hv
        exact ⟨l', s', List.mem_cons_of_mem _ hl', he⟩

theorem submitCount_flushCore (outc : Option String) (now2 : Nat)
    (interim : List BufEntry) (s : Adapter) :
    submitCount (flushCore outc now2 interim s).2 =
      (if s.logBuffer.isEmpty then 0 else 1) := by
  by_cases h : s.logBuffer = []
  · simp [flushCore_empty outc now2 interim s h, h, submitCount]
  · cases outc with
    | none =>
      simp [flushCore_fail now2 interim s h, h, submitCount, List.filter]
    | some j =>
      have hmem := resolveLoop_mem j now2 s.logBuffer
        (interim.foldl (fun m e => mapSet m e.tempId e.serial) s.pendingLogs)
      simp only [flushCore_succ j now2 interim s h]
      simp [h, submitCount, List.filter_cons]
      intro a ha
      obtain ⟨l, serial, hl, rfl⟩ := hmem a ha
      rfl

theorem flushCore_fail_requeues (now2 : Nat) (s : Adapter) :
    (flushCore none now2 [] s).1.logBuffer = s.logBuffer := by
  by_cases h : s.logBuffer = []
  · simp [flushCore_empty none now2 [] s h, h]
  · simp [flushCore_fail now2 [] s h]

theorem shutdown_stops_timer_single_flush (outc : Option String) (now2 : Nat)
    (s : Adapter) :
    shutdown outc now2 s = Except.ok (shutdownCore outc now2 s) ∧
    (shutdownCore outc now2 s).1.flushTimer = false ∧
    submitCount (shutdownCore outc now2 s).2 =
      (if s.logBuffer.isEmpty then 0 else 1) ∧
    (shutdownCore none now2 s).1.logBuffer = s.logBuffer := by
  refine ⟨rfl, ?_, ?_, ?_⟩
  · have h := (flushCore_fields outc now2 [] { s with flushTimer := false }).2.1
    simpa [shutdownCore] using h
  · have h := submitCount_flushCore outc now2 [] { s with flushTimer := false }
    simpa [shutdownCore] using h
  · have h := flushCore_fail_requeues now2 { s with flushTimer := false }
    simpa [shutdownCore] using h

/-- Adapter state reached by initializing with `maxBufferSize = 5` and logging
one record `"a"` (no size-triggered flush). -/
def stC1 : Adapter :=
  (run (initAdapter (mkAdapter { maxBufferSize := some 5 })) [Op.logOp "a" none 1 none 2]).1

/-- Claim C1 counterexample: with one buffered record and a failing submit,
`shutdown()` resolves normally (`Except.ok`) — the flush error is swallowed
(logged and the record requeued), not surfaced to the shutdown caller as the
claim states. -/
theorem shutdown_swallows_flush_error_cex :
    shutdown none 3 stC1 =
      Except.ok ({ stC1 with flushTimer := false },
        [Event.submitFail [serializeRecord (mkBufEntry "a" none 1 "temp-1-1" 0)]]) ∧
    (shutdown none 3 stC1).isOk = true ∧
    (shutdownCore none 3 stC1).1.logBuffer = stC1.logBuffer := by
  exact ⟨rfl, rfl, rfl⟩

/-! ### Claim C5 -/

theorem logPush_fields (data : String) (options : Option LogOptions) (now : Nat)
    (s : Adapter) :
    (logPush data options now s).maxBufferSize = s.maxBufferSize ∧
    (logPush data options now s).isInitialized = s.isInitialized ∧
    (logPush data options now s).logBuffer.length = s.logBuffer.length + 1 := by
  simp [logPush]

theorem flushCore_succ_empties (j : String) (now2 : Nat) (s : Adapter) :
    (flushCore (some j) now2 [] s).1.logBuffer = [] := by
  by_cases h : s.logBuffer = []
  · simp [flushCore_empty (some j) now2 [] s h, h]
  · simp [flushCore_succ j now2 [] s h]

theorem log_notInit (d : String) (o : Option LogOptions) (now : Nat)
    (outc : Option String) (now2 : Nat) (s : Adapter)
    (hi : s.isInitialized = false) :
    log d o now outc now2 s =
      Except.error "Adapter not initialized. Call initialize() first." := by
  simp [log, hi]

theorem log_flush_eq (d : String) (o : Option LogOptions) (now : Nat)
    (outc : Option String) (now2 : Nat) (s : Adapter)
    (hi : s.isInitialized = true) (hb : s.maxBufferSize ≤ s.logBuffer.length + 1) :
    log d o now outc now2 s =
      Except.ok ((flushCore outc now2 [] (logPush d o now s)).1, s.nextSerial,
        (flushCore outc now2 [] (logPush d o now s)).2) := by
  simp [log, logPush, hi, hb]

theorem log_noflush_eq (d : String) (o : Option LogOptions) (now : Nat)
    (outc : Option String) (now2 : Nat) (s : Adapter)
    (hi : s.isInitialized = true)
    (hb : ¬ s.maxBufferSize ≤ s.logBuffer.length + 1) :
    log d o now outc now2 s =
      Except.ok (logPush d o now s, s.nextSerial, []) := by
  simp [log, logPush, hi, hb]

theorem applyOp_maxBufferSize (s : Adapter) (op : Op) :
    (applyOp s op).1.maxBufferSize = s.maxBufferSize := by
  cases op with
  | logOp d o now outc now2 =>
    rcases Bool.eq_false_or_eq_true s.isInitialized with hi | hi
    · by_cases hb : s.maxBufferSize ≤ s.logBuffer.length + 1
      · simp [applyOp, log_flush_eq d o now outc now2 s hi hb,
          (flushCore_fields outc now2 [] (logPush d o now s)).2.2.1,
          (logPush_fields d o now s).1]
      · simp [applyOp, log_noflush_eq d o now outc now2 s hi hb,
          (logPush_fields d o now s).1]
    · simp [applyOp, log_notInit d o now outc now2 s hi]
  | flushOp outc now2 =>
    simp [applyOp, flush, (flushCore_fields outc now2 [] s).2.2.1]
  | shutdownOp outc now2 =>
    have h := (flushCore_fields outc now2 [] { s with flushTimer := false }).2.2.1
    simp [applyOp, shutdown, shutdownCore] at h ⊢
    exact h

theorem applyOp_bounded (s : Adapter) (op : Op) (hop : opSuccess op = true)
    (hs : s.logBuffer.length < s.maxBufferSize) :
    (applyOp s op).1.logBuffer.length < (applyOp s op).1.maxBufferSize := by
  rw [applyOp_maxBufferSize]
  cases op with
  | logOp d o now outc now2 =>
    cases outc with
    | none => simp [opSuccess] at hop
    | some j =>
      rcases Bool.eq_false_or_eq_true s.isInitialized with hi | hi
      · by_cases hb : s.maxBufferSize ≤ s.logBuffer.length + 1
        · simp [applyOp, log_flush_eq d o now (some j) now2 s hi hb,
            flushCore_succ_empties]
          omega
        · have h2 := (logPush_fields d o now s).2.2
          simp [applyOp, log_noflush_eq d o now (some j) now2 s hi hb, h2]
          omega
      · simpa [applyOp, log_notInit d o now (some j) now2 s hi] using hs
  | flushOp outc now2 =>
    cases outc with
    | none => simp [opSuccess] at hop
    | some j =>
      simp [applyOp, flush, flushCore_succ_empties]
      omega
  | shutdownOp outc now2 =>
    cases outc with
    | none => simp [opSuccess] at hop
    | some j =>
      have h := flushCore_succ_empties j now2 { s with flushTimer := false }
      simp [applyOp, shutdown, shutdownCore, h]
      omega

theorem run_bounded (s : Adapter) (ops : List Op)
    (hops : ∀ op ∈ ops, opSuccess op = true)
    (hs : s.logBuffer.length < s.maxBufferSize) :
    (run s ops).1.logBuffer.length < (run s ops).1.maxBufferSize := by
  induction ops generalizing s with
  | nil => simpa [run] using hs
  | cons op ops ih =>
    simp only [run]
    exact ih ((applyOp s op).1)
      (fun o ho => hops o (List.mem_cons_of_mem _ ho))
      (applyOp_bounded s op (hops op (List.mem_cons_self _ _)) hs)

theorem run_maxBufferSize (s : Adapter) (ops : List Op) :
    (run s ops).1.maxBufferSize = s.maxBufferSize := by
  induction ops generalizing s with
  | nil => rfl
  | cons op ops ih =>
    simp only [run]
    rw [ih ((applyOp s op).1), applyOp_maxBufferSize]

theorem orDefault_pos (v : Option Nat) (d : Nat) (hd : 0 < d) :
    0 < orDefault v d := by
  match v with
  | none => exact hd
  | some 0 => exact hd
  | some (n + 1) => exact Nat.succ_pos n

/-- Claim C5 (amended): after the k-th `log()` appends its record a flush is
attempted before that `log()` call returns (one submit attempt exactly when the
post-push length reaches `maxBufferSize`); and provided every submit succeeds,
the buffer length at rest never exceeds `maxBufferSize`.  (When a submit fails
the drained records are requeued and the buffer at rest can exceed the
threshold — see the counterexample.) -/
theorem buffer_bounded_when_submits_succeed (cfg : Config) (ops : List Op)
    (s : Adapter) (d : String) (o : Option LogOptions) (now : Nat)
    (outc : Option String) (now2 : Nat) :
    ((∀ op ∈ ops, opSuccess op = true) →
      (run (initAdapter (mkAdapter cfg)) ops).1.logBuffer.length ≤
        (mkAdapter cfg).maxBufferSize) ∧
    submitCount ((applyOp { s with isInitialized := true }
        (Op.logOp d o now outc now2)).2) =
      (if s.maxBufferSize ≤ s.logBuffer.length + 1 then 1 else 0) := by
  constructor
  · intro hops
    have hmax : 0 < (mkAdapter cfg).maxBufferSize :=
      orDefault_pos cfg.maxBufferSize 1000 (by omega)
    have h0 : (initAdapter (mkAdapter cfg)).logBuffer.length <
        (initAdapter (mkAdapter cfg)).maxBufferSize := by
      simpa [initAdapter, mkAdapter] using hmax
    have h := run_bounded (initAdapter (mkAdapter cfg)) ops hops h0
    have hm := run_maxBufferSize (initAdapter (mkAdapter cfg)) ops
    have hm2 : (initAdapter (mkAdapter cfg)).maxBufferSize =
        (mkAdapter cfg).maxBufferSize := by
      simp [initAdapter, mkAdapter]
    omega
  · have hinit : ({ s with isInitialized := true } : Adapter).isInitialized = true := rfl
    by_cases hb : s.maxBufferSize ≤ s.logBuffer.length + 1
    · have hb2 : ({ s with isInitialized := true } : Adapter).maxBufferSize ≤
          ({ s with isInitialized := true } : Adapter).logBuffer.length + 1 := hb
      have hne : (logPush d o now { s with isInitialized := true }).logBuffer ≠ [] := by
        simp [logPush]
      have hc : submitCount
          (flushCore outc now2 []
            (logPush d o now { s with isInitialized := true })).2 = 1 := by
        rw [submitCount_flushCore]
        simp [hne]
      simp [applyOp, log_flush_eq d o now outc now2 _ hinit hb2, hc, hb]
    · have hb2 : ¬ ({ s with isInitialized := true } : Adapter).maxBufferSize ≤
          ({ s with isInitialized := true } : Adapter).logBuffer.length + 1 := hb
      simp [applyOp, log_noflush_eq d o now outc now2 _ hinit hb2, hb, submitCount]

/-- Witness for C5's amended theorem: a run with one successful submit keeps
the buffer within the threshold, and a threshold-reaching `log()` on a default
adapter performs no submit (1 < 1000). -/
theorem buffer_bounded_when_submits_succeed_witness :
    ((run (initAdapter (mkAdapter { maxBufferSize := some 2 }))
        [Op.logOp "a" none 1 (some "j") 2]).1.logBuffer.length ≤
      (mkAdapter { maxBufferSize := some 2 }).maxBufferSize) ∧
    submitCount ((applyOp { mkAdapter {} with isInitialized := true }
        (Op.logOp "b" none 3 none 4)).2) =
      (if (mkAdapter {}).maxBufferSize ≤ (mkAdapter {}).logBuffer.length + 1
        then 1 else 0) :=
  ⟨(buffer_bounded_when_submits_succeed { maxBufferSize := some 2 }
      [Op.logOp "a" none 1 (some "j") 2] (mkAdapter {}) "b" none 3 none 4).1
      (by decide),
   (buffer_bounded_when_submits_succeed { maxBufferSize := some 2 }
      [Op.logOp "a" none 1 (some "j") 2] (mkAdapter {}) "b" none 3 none 4).2⟩

/-- Claim C5 counterexample: with `maxBufferSize = 1` and a failing submit,
two `log()` calls leave the buffer at length 2 at rest — the threshold flush is
attempted but the failed submit requeues the drained records, so the buffer
exceeds `maxBufferSize`. -/
theorem buffer_exceeds_threshold_cex :
    (mkAdapter { maxBufferSize := some 1 }).maxBufferSize = 1 ∧
    (run (initAdapter (mkAdapter { maxBufferSize := some 1 }))
        [Op.logOp "a" none 1 none 2, Op.logOp "b" none 3 none 4]).1.logBuffer.length = 2 := by
  exact ⟨rfl, rfl⟩

/-! ### Claims C8 and C6 -/

theorem log_isOk (d : String) (o : Option LogOptions) (now : Nat)
    (outc : Option String) (now2 : Nat) (s : Adapter) :
    (log d o now outc now2 s).isOk = s.isInitialized := by
  rcases Bool.eq_false_or_eq_true s.isInitialized with hi | hi
  · by_cases hb : s.maxBufferSize ≤ s.logBuffer.length + 1
    · rw [log_flush_eq d o now outc now2 s hi hb, hi]
      rfl
    · rw [log_noflush_eq d o now outc now2 s hi hb, hi]
      rfl
  · rw [log_notInit d o now outc now2 s hi, hi]
    rfl

/-- Claim C8: `log()` throws only the "not initialized" precondition error —
raised before any record is buffered (the state is untouched) — and never
throws because a remote submission failed: for every submit outcome (including
failure) an initialized adapter's `log()` resolves normally. -/
theorem log_throws_only_when_uninitialized (s : Adapter) (d : String)
    (o : Option LogOptions) (now : Nat) (outc : Option String) (now2 : Nat) :
    (log d o now outc now2 s).isOk = s.isInitialized ∧
    log d o now outc now2 { s with isInitialized := false } =
      Except.error "Adapter not initialized. Call initialize() first." ∧
    applyOp { s with isInitialized := false } (Op.logOp d o now outc now2) =
      ({ s with isInitialized := false }, []) := by
  refine ⟨log_isOk d o now outc now2 s, ?_, ?_⟩
  · exact log_notInit d o now outc now2 _ rfl
  · simp [applyOp, log_notInit d o now outc now2
      ({ s with isInitialized := false } : Adapter) rfl]

/-- Claim C6 (amended): `log()` after `shutdown()` does NOT fail fast with a
"not accepting new records" error: `shutdown()` leaves `isInitialized` set and
`log()` has no shutting-down check, so the record is accepted (and buffered)
normally. -/
theorem log_after_shutdown_accepted (s : Adapter) (outc : Option String)
    (now2 : Nat) (d : String) (o : Option LogOptions) (now : Nat)
    (outc2 : Option String) (now3 : Nat) :
    (shutdownCore outc now2 { s with isInitialized := true }).1.isInitialized = true ∧
    (log d o now outc2 now3
      (shutdownCore outc now2 { s with isInitialized := true }).1).isOk = true := by
  have hfields :=
    (flushCore_fields outc now2 []
      { s with isInitialized := true, flushTimer := false }).1
  have hi : (shutdownCore outc now2 { s with isInitialized := true }).1.isInitialized
      = true := by
    simpa [shutdownCore] using hfields
  exact ⟨hi, by rw [log_isOk, hi]⟩

/-- The adapter state after initializing (default config) and shutting down
with an empty buffer. -/
def stC6 : Adapter := (shutdownCore none 1 (initAdapter (mkAdapter {}))).1

/-- Claim C6 counterexample: after `shutdown()` has completed, `log()` does not
fail with a "not accepting new records" error — it succeeds and appends the
record to the buffer (which, with the timer stopped, no longer drains on a
schedule). -/
theorem log_after_shutdown_cex :
    (log "x" none 2 none 3 stC6).isOk = true ∧
    (log "x" none 2 none 3 stC6).toOption.map (fun p => p.1.logBuffer.length) =
      some 1 := by
  exact ⟨rfl, rfl⟩

/-! ### Claim C7 -/

/-- Claim C7 (amended): the `waitForConfirmation` configuration option is
accepted by the constructor but ignored by the log/flush path: the events of a
flush are identical whether or not the flag is set, and every completion is
resolved at submit time with DA status `"PENDING"` — no confirmation polling
happens before resolving. -/
theorem waitForConfirmation_flag_ignored (s : Adapter) (b : Bool)
    (outc : Option String) (now2 : Nat) (interim : List BufEntry) :
    (flushCore outc now2 interim { s with waitForConfirmation := b }).2 =
      (flushCore outc now2 interim s).2 ∧
    resolvesAllPending (flushCore outc now2 interim s).2 = true := by
  constructor
  · by_cases h : s.logBuffer = []
    · have h' : ({ s with waitForConfirmation := b } : Adapter).logBuffer = [] := h
      rw [flushCore_empty outc now2 interim _ h', flushCore_empty outc now2 interim _ h]
    · have h' : ({ s with waitForConfirmation := b } : Adapter).logBuffer ≠ [] := h
      cases outc with
      | none => rw [flushCore_fail now2 interim _ h', flushCore_fail now2 interim _ h]
      | some j => rw [flushCore_succ j now2 interim _ h', flushCore_succ j now2 interim _ h]
  · by_cases h : s.logBuffer = []
    · rw [flushCore_empty outc now2 interim _ h]
      rfl
    · cases outc with
      | none =>
        rw [flushCore_fail now2 interim _ h]
        rfl
      | some j =>
        rw [flushCore_succ j now2 interim _ h]
        have hmem := resolveLoop_mem j now2 s.logBuffer
          (interim.foldl (fun m e => mapSet m e.tempId e.serial) s.pendingLogs)
        simp only [resolvesAllPending]
        rw [List.all_eq_true]
        intro ev hv
        rcases List.mem_cons.mp hv with rfl | hv
        · rfl
        · obtain ⟨l, serial, _, rfl⟩ := hmem ev hv
          rfl

/-- The trace of one `log()` on an adapter configured with
`waitForConfirmation = true` and `maxBufferSize = 1`, with a successful
upload. -/
def trC7 : List Event :=
  (run (initAdapter (mkAdapter { maxBufferSize := some 1, waitForConfirmation := true }))
    [Op.logOp "x" none 1 (some "job1") 2]).2

/-- Claim C7 counterexample: with `waitForConfirmation = true`, the completion
of a logged record is resolved in the same flush as the submit, with DA status
`"PENDING"` — it resolves at submit time instead of polling status until
confirmed. -/
theorem waitForConfirmation_pending_cex :
    (initAdapter (mkAdapter { maxBufferSize := some 1, waitForConfirmation := true })
      ).waitForConfirmation = true ∧
    trC7 = [Event.submitSuccess [serializeRecord (mkBufEntry "x" none 1 "temp-1-1" 0)] "job1",
            Event.resolve 0 "temp-1-1" (mkResolved "job1" 2 (mkBufEntry "x" none 1 "temp-1-1" 0))] ∧
    (mkResolved "job1" 2 (mkBufEntry "x" none 1 "temp-1-1" 0)).status.status = "PENDING" := by
  exact ⟨rfl, rfl, rfl⟩

/-! ### Claims C3 and C4 -/

/-- Claim C3: a flush submits the drained records serialized in exactly their
buffer (= enqueue) order; and on submit failure the drained records are
reinserted at the head of the buffer, in their original relative order, ahead
of any records enqueued since the flush began (`interim`). -/
theorem flush_preserves_order_and_requeues_front (s : Adapter) (j : String)
    (now2 : Nat) (interim : List BufEntry) (h : s.logBuffer ≠ []) :
    (flushCore (some j) now2 interim s).2.head? =
      some (Event.submitSuccess (s.logBuffer.map serializeRecord) j) ∧
    (flushCore none now2 interim s).1.logBuffer = s.logBuffer ++ interim := by
  constructor
  · rw [flushCore_succ j now2 interim s h]
    rfl
  · rw [flushCore_fail now2 interim s h]

/-- A concrete record for witnesses ("a", enqueued first). -/
def eA : BufEntry := mkBufEntry "a" none 1 "temp-1-1" 0

/-- A concrete record for witnesses ("b", enqueued during the failing flush). -/
def eB : BufEntry := mkBufEntry "b" none 5 "temp-5-1" 1

/-- A concrete initialized adapter with `eA` buffered. -/
def stC3 : Adapter := { mkAdapter {} with isInitialized := true, logBuffer := [eA] }

/-- Witness for C3's theorem at a concrete state: one buffered record, one
record enqueued mid-flush. -/
theorem flush_preserves_order_witness :
    (flushCore (some "j1") 6 [eB] stC3).2.head? =
      some (Event.submitSuccess (stC3.logBuffer.map serializeRecord) "j1") ∧
    (flushCore none 6 [eB] stC3).1.logBuffer = stC3.logBuffer ++ [eB] :=
  flush_preserves_order_and_requeues_front stC3 "j1" 6 [eB] (by decide)

/-- Claim C4: when the submit fails on attempt 1 and succeeds on attempt 2, the
batch delivered on attempt 2 is exactly the batch that failed on attempt 1 —
the same serialized records (level, message, timestamp, metadata, data,
options), in the same order, none duplicated, none lost — and the successful
flush empties the buffer. -/
theorem retry_preserves_records (s : Adapter) (j : String) (now2 now3 : Nat)
    (h : s.logBuffer ≠ []) :
    (flushCore none now2 [] s).2 =
      [Event.submitFail (s.logBuffer.map serializeRecord)] ∧
    (flushCore (some j) now3 [] (flushCore none now2 [] s).1).2.head? =
      some (Event.submitSuccess (s.logBuffer.map serializeRecord) j) ∧
    (flushCore (some j) now3 [] (flushCore none now2 [] s).1).1.logBuffer = [] := by
  have h1 : (flushCore none now2 [] s).1.logBuffer = s.logBuffer :=
    flushCore_fail_requeues now2 s
  have h2 : (flushCore none now2 [] s).1.logBuffer ≠ [] := by rw [h1]; exact h
  refine ⟨?_, ?_, ?_⟩
  · rw [flushCore_fail now2 [] s h]
  · rw [flushCore_succ j now3 [] _ h2, h1]
    rfl
  · rw [flushCore_succ j now3 [] _ h2]

/-- Witness for C4's theorem at a concrete state. -/
theorem retry_preserves_records_witness :
    (flushCore none 7 [] stC3).2 =
      [Event.submitFail (stC3.logBuffer.map serializeRecord)] ∧
    (flushCore (some "j2") 8 [] (flushCore none 7 [] stC3).1).2.head? =
      some (Event.submitSuccess (stC3.logBuffer.map serializeRecord) "j2") ∧
    (flushCore (some "j2") 8 [] (flushCore none 7 [] stC3).1).1.logBuffer = [] :=
  retry_preserves_records stC3 "j2" 7 8 (by decide)

/-! ### Claim C10 -/

/-- A concrete serialized record, as flushed in a batch of one. -/
def rcC10 : SRecord :=
  { level := .info, message := "m", timestamp := 3, metadata := none,
    data := "m", options := none }

/-- A remote store holding, under handle `"job1"`, exactly the payload
`flush()` uploads for the batch `[rcC10]`
(`{logs: [...], timestamp: 10, type: 'log_batch'}`). -/
def retrieveC10 : String → Option JVal :=
  fun j => if j == "job1" then some (batchJson [rcC10] 10) else none

/-- Claim C10 evaluation at the failing input: the stored payload is a
well-formed flush batch (its `type` is `'log_batch'` and its `logs` is a
non-empty array), yet `getLogEntry("job1")` returns `null` instead of a
`DALogEntry` for the first record: `get()` returns `JSON.parse(data).data`,
and a flush batch payload has no `data` property, so `get` yields `undefined`
and `getLogEntry` bails out with `null` before ever reaching its
`log_batch` branch. -/
theorem getLogEntry_batch_returns_null :
    isLogBatchType (getField (batchJson [rcC10] 10) "type") = true ∧
    isArrB (getField (batchJson [rcC10] 10) "logs") = true ∧
    getField (batchJson [rcC10] 10) "logs" = some (JVal.arr [recordJson rcC10]) ∧
    retrieveC10 "job1" = some (batchJson [rcC10] 10) ∧
    get retrieveC10 "job1" = none ∧
    getLogEntry retrieveC10 (fun _ => none) "job1" = none := by
  exact ⟨rfl, rfl, rfl, rfl, rfl, rfl⟩

/-! ### Claim C2 -/

/-- A trace satisfies the completion-timing discipline: every resolution is
preceded by a successful submit whose serialized batch contains a record with
the resolved entry's content, timestamp and options, and whose job id is the
resolved entry's id. -/
def ResolveOk (tr : List Event) : Prop :=
  ∀ pre serial tid entry suf,
    tr = pre ++ Event.resolve serial tid entry :: suf →
    ∃ payload r, Event.submitSuccess payload entry.id ∈ pre ∧ r ∈ payload ∧
      r.data = entry.content ∧ r.timestamp = entry.timestamp ∧
      r.options = entry.options

theorem resolveOk_nil : ResolveOk [] := by
  intro pre serial tid entry suf heq
  exact absurd heq (by simp)

theorem resolveOk_append {tr evs : List Event} (h1 : ResolveOk tr)
    (h2 : ResolveOk evs) : ResolveOk (tr ++ evs) := by
  intro pre serial tid entry suf heq
  rcases List.append_eq_append_iff.mp heq with ⟨a', hpre, hevs⟩ | ⟨c', htr, hd⟩
  · obtain ⟨payload, r, hmem, hr⟩ := h2 a' serial tid entry suf hevs
    refine ⟨payload, r, ?_, hr⟩
    rw [hpre]
    exact List.mem_append_right tr hmem
  · cases c' with
    | nil =>
      obtain ⟨payload, r, hmem, _⟩ :=
        h2 [] serial tid entry suf (by simpa using hd.symm)
      exact absurd hmem (List.not_mem_nil _)
    | cons e c'' =>
      injection hd with hres hsuf'
      obtain ⟨payload, r, hmem, hr⟩ :=
        h1 pre serial tid entry c'' (by rw [htr, ← hres])
      exact ⟨payload, r, hmem, hr⟩

theorem resolveOk_flushCore (outc : Option String) (now2 : Nat)
    (interim : List BufEntry) (s : Adapter) :
    ResolveOk (flushCore outc now2 interim s).2 := by
  by_cases h : s.logBuffer = []
  · rw [flushCore_empty outc now2 interim s h]
    exact resolveOk_nil
  · cases outc with
    | none =>
      rw [flushCore_fail now2 interim s h]
      intro pre serial tid entry suf heq
      cases pre with
      | nil => simp at heq
      | cons e pre' => simp at heq
    | some j =>
      rw [flushCore_succ j now2 interim s h]
      have hmem := resolveLoop_mem j now2 s.logBuffer
        (interim.foldl (fun m e => mapSet m e.tempId e.serial) s.pendingLogs)
      intro pre serial tid entry suf heq
      cases pre with
      | nil => simp at heq
      | cons e pre' =>
        rw [List.cons_append] at heq
        injection heq with he htail
        have hin : Event.resolve serial tid entry ∈
            (resolveLoop j now2 s.logBuffer
              (interim.foldl (fun m e => mapSet m e.tempId e.serial) s.pendingLogs)).2 := by
          rw [htail]
          exact List.mem_append_right _ (List.mem_cons_self _ _)
        obtain ⟨l, serial', hl, hev⟩ := hmem _ hin
        injection hev with hs' ht' hentry
        refine ⟨s.logBuffer.map serializeRecord, serializeRecord l, ?_, ?_, ?_, ?_, ?_⟩
        · rw [hentry, ← he]
          exact List.mem_cons_self _ _
        · exact List.mem_map_of_mem serializeRecord hl
        · rw [hentry]; rfl
        · rw [hentry]; rfl
        · rw [hentry]; rfl

theorem resolveOk_applyOp (s : Adapter) (op : Op) :
    ResolveOk (applyOp s op).2 := by
  cases op with
  | logOp d o now outc now2 =>
    rcases Bool.eq_false_or_eq_true s.isInitialized with hi | hi
    · by_cases hb : s.maxBufferSize ≤ s.logBuffer.length + 1
      · have h := resolveOk_flushCore outc now2 [] (logPush d o now s)
        simpa [applyOp, log_flush_eq d o now outc now2 s hi hb] using h
      · simpa [applyOp, log_noflush_eq d o now outc now2 s hi hb] using resolveOk_nil
    · simpa [applyOp, log_notInit d o now outc now2 s hi] using resolveOk_nil
  | flushOp outc now2 =>
    simpa [applyOp, flush] using resolveOk_flushCore outc now2 [] s
  | shutdownOp outc now2 =>
    have h := resolveOk_flushCore outc now2 [] { s with flushTimer := false }
    simpa [applyOp, shutdown, shutdownCore] using h

theorem resolveOk_run (s : Adapter) (ops : List Op) :
    ResolveOk (run s ops).2 := by
  induction ops generalizing s with
  | nil => exact resolveOk_nil
  | cons op ops ih =>
    simp only [run]
    exact resolveOk_append (resolveOk_applyOp s op) (ih ((applyOp s op).1))

/-- Claim C2: in every sequential execution from a fresh adapter, a completion
is resolved only after a successful submit whose batch contains its record
(same data, timestamp and options, resolved with that submit's job id); and a
failing flush resolves nothing — the drained records' completions stay in
`pendingLogs`, still pending. -/
theorem completion_only_after_successful_submit (cfg : Config) (ops : List Op)
    (pre suf : List Event) (serial : Nat) (tid : String) (entry : DALogEntry)
    (now2 : Nat) (s : Adapter) :
    ((run (initAdapter (mkAdapter cfg)) ops).2 =
        pre ++ Event.resolve serial tid entry :: suf →
      ∃ payload r, Event.submitSuccess payload entry.id ∈ pre ∧ r ∈ payload ∧
        r.data = entry.content ∧ r.timestamp = entry.timestamp ∧
        r.options = entry.options) ∧
    (flushCore none now2 [] s).1.pendingLogs = s.pendingLogs ∧
    evSerials (flushCore none now2 [] s).2 = [] := by
  refine ⟨fun heq => resolveOk_run _ ops pre serial tid entry suf heq, ?_, ?_⟩
  · by_cases h : s.logBuffer = []
    · rw [flushCore_empty none now2 [] s h]
    · rw [flushCore_fail now2 [] s h]
      rfl
  · by_cases h : s.logBuffer = []
    · rw [flushCore_empty none now2 [] s h]
      rfl
    · rw [flushCore_fail now2 [] s h]
      rfl

/-! ### Claim C9 -/

theorem evSerials_append (a b : List Event) :
    evSerials (a ++ b) = evSerials a ++ evSerials b := by
  simp [evSerials, List.filterMap_append]

theorem resolveLoop_sublist (j : String) (now2 : Nat) (logs : List BufEntry)
    (pending : List (String × Nat)) :
    (resolveLoop j now2 logs pending).1.Sublist pending := by
  induction logs generalizing pending with
  | nil => exact List.Sublist.refl pending
  | cons l rest ih =>
    unfold resolveLoop
    cases hm : mapGet pending l.tempId with
    | none =>
      simp only [hm]
      exact ih pending
    | some serial =>
      simp only [hm]
      exact (ih (mapDel pending l.tempId)).trans (List.filter_sublist pending)

theorem mapGet_eq_some (m : List (String × Nat)) (k : String) (v : Nat)
    (h : mapGet m k = some v) : ∃ p, p ∈ m ∧ p.1 = k ∧ p.2 = v := by
  simp only [mapGet, Option.map_eq_some'] at h
  obtain ⟨p, hfind, hp2⟩ := h
  have hmem := List.mem_of_find?_eq_some hfind
  have hpred := List.find?_some hfind
  exact ⟨p, hmem, by simpa using hpred, hp2⟩

theorem mem_mapDel (m : List (String × Nat)) (k : String) (q : String × Nat)
    (h : q ∈ mapDel m k) : q ∈ m ∧ q.1 ≠ k := by
  simp only [mapDel, List.mem_filter] at h
  exact ⟨h.1, by simpa using h.2⟩

theorem resolveLoop_serials (j : String) (now2 : Nat) (logs : List BufEntry)
    (pending : List (String × Nat)) (hv : (pending.map Prod.snd).Nodup) :
    (evSerials (resolveLoop j now2 logs pending).2).Nodup ∧
    (∀ x ∈ evSerials (resolveLoop j now2 logs pending).2, x ∈ pending.map Prod.snd) ∧
    (∀ x ∈ evSerials (resolveLoop j now2 logs pending).2,
      x ∉ (resolveLoop j now2 logs pending).1.map Prod.snd) := by
  induction logs generalizing pending with
  | nil =>
    refine ⟨List.nodup_nil, ?_, ?_⟩ <;> intro x hx <;> simp [resolveLoop, evSerials] at hx
  | cons l rest ih =>
    unfold resolveLoop
    cases hm : mapGet pending l.tempId with
    | none =>
      simp only [hm]
      exact ih pending hv
    | some serial =>
      simp only [hm]
      obtain ⟨p, hpmem, hpk, hpv⟩ := mapGet_eq_some pending l.tempId serial hm
      have hvdel : ((mapDel pending l.tempId).map Prod.snd).Nodup :=
        hv.sublist ((List.filter_sublist pending).map Prod.snd)
      have hserial_not : serial ∉ (mapDel pending l.tempId).map Prod.snd := by
        intro hmem2
        obtain ⟨q, hq, hq2⟩ := List.mem_map.mp hmem2
        obtain ⟨hqmem, hqk⟩ := mem_mapDel pending l.tempId q hq
        have hqp : q = p :=
          List.inj_on_of_nodup_map hv hqmem hpmem (by rw [hq2, hpv])
        exact hqk (by rw [hqp, hpk])
      obtain ⟨ihn, ihsub, ihnot⟩ := ih (mapDel pending l.tempId) hvdel
      have hser_mem : serial ∈ pending.map Prod.snd :=
        List.mem_map.mpr ⟨p, hpmem, hpv⟩
      refine ⟨?_, ?_, ?_⟩
      · simp only [evSerials, List.filterMap_cons]
        refine List.nodup_cons.mpr ⟨?_, ihn⟩
        intro hser
        exact hserial_not (ihsub serial hser)
      · intro x hx
        simp only [evSerials, List.filterMap_cons] at hx
        rcases List.mem_cons.mp hx with rfl | hx
        · exact hser_mem
        · exact ((List.filter_sublist pending).map Prod.snd).subset (ihsub x hx)
      · intro x hx
        simp only [evSerials, List.filterMap_cons] at hx
        rcases List.mem_cons.mp hx with rfl | hx
        · intro hmem2
          have hsub2 := (resolveLoop_sublist j now2 rest (mapDel pending l.tempId)).map Prod.snd
          exact hserial_not (hsub2.subset hmem2)
        · exact ihnot x hx

/-- The resolver bookkeeping invariant: the serials registered in
`pendingLogs` are pairwise distinct, below the ghost counter, and disjoint
from the serials already resolved in the trace; the resolved serials are
pairwise distinct and below the counter. -/
def Inv (s : Adapter) (tr : List Event) : Prop :=
  (s.pendingLogs.map Prod.snd).Nodup ∧
  (∀ v ∈ s.pendingLogs.map Prod.snd, v < s.nextSerial) ∧
  (∀ v ∈ evSerials tr, v < s.nextSerial) ∧
  (∀ v ∈ s.pendingLogs.map Prod.snd, v ∉ evSerials tr) ∧
  (evSerials tr).Nodup

theorem Inv_flushCore (outc : Option String) (now2 : Nat) (s : Adapter)
    (tr : List Event) (h : Inv s tr) :
    Inv (flushCore outc now2 [] s).1 (tr ++ (flushCore outc now2 [] s).2) := by
  obtain ⟨hv, hlt, htlt, hfresh, htn⟩ := h
  by_cases hb : s.logBuffer = []
  · rw [flushCore_empty outc now2 [] s hb]
    exact ⟨hv, hlt, by simpa using htlt, by simpa using hfresh, by simpa using htn⟩
  · cases outc with
    | none =>
      rw [flushCore_fail now2 [] s hb]
      have htr : evSerials (tr ++ [Event.submitFail (s.logBuffer.map serializeRecord)]) =
          evSerials tr := by
        simp [evSerials_append, evSerials]
      refine ⟨hv, hlt, ?_, ?_, ?_⟩
      · rw [htr]; exact htlt
      · rw [htr]; exact hfresh
      · rw [htr]; exact htn
    | some j =>
      rw [flushCore_succ j now2 [] s hb]
      simp only [List.foldl_nil]
      obtain ⟨rn, rsub, rnot⟩ := resolveLoop_serials j now2 s.logBuffer s.pendingLogs hv
      have hsubv :=
        (resolveLoop_sublist j now2 s.logBuffer s.pendingLogs).map Prod.snd
      have htr : evSerials (tr ++ Event.submitSuccess (s.logBuffer.map serializeRecord) j ::
          (resolveLoop j now2 s.logBuffer s.pendingLogs).2) =
          evSerials tr ++ evSerials (resolveLoop j now2 s.logBuffer s.pendingLogs).2 := by
        rw [evSerials_append]
        simp [evSerials, List.filterMap_cons]
      refine ⟨?_, ?_, ?_, ?_, ?_⟩
      · exact hv.sublist hsubv
      · intro v hvm
        exact hlt v (hsubv.subset hvm)
      · rw [htr]
        intro v hvm
        rcases List.mem_append.mp hvm with hvm | hvm
        · exact htlt v hvm
        · exact hlt v (rsub v hvm)
      · rw [htr]
        intro v hvm hin
        rcases List.mem_append.mp hin with hin | hin
        · exact hfresh v (hsubv.subset hvm) hin
        · exact rnot v hin hvm
      · rw [htr]
        refine htn.append rn ?_
        intro a ha hin
        exact hfresh a (rsub a hin) ha

theorem Inv_logPush (d : String) (o : Option LogOptions) (now : Nat) (s : Adapter)
    (tr : List Event) (h : Inv s tr) : Inv (logPush d o now s) tr := by
  obtain ⟨hv, hlt, htlt, hfresh, htn⟩ := h
  have hmap : (logPush d o now s).pendingLogs.map Prod.snd =
      (s.pendingLogs.filter
        (fun p => p.1 != "temp-" ++ toString now ++ "-" ++
          toString (s.logBuffer.length + 1))).map Prod.snd ++ [s.nextSerial] := by
    simp [logPush, mapSet]
  have hsubf : ((s.pendingLogs.filter
      (fun p => p.1 != "temp-" ++ toString now ++ "-" ++
        toString (s.logBuffer.length + 1))).map Prod.snd).Sublist
      (s.pendingLogs.map Prod.snd) :=
    (List.filter_sublist s.pendingLogs).map Prod.snd
  refine ⟨?_, ?_, ?_, ?_, htn⟩
  · rw [hmap]
    refine (hv.sublist hsubf).append (List.nodup_singleton _) ?_
    intro a ha hin
    have := hlt a (hsubf.subset ha)
    simp only [List.mem_singleton] at hin
    omega
  · rw [hmap]
    intro v hvm
    rcases List.mem_append.mp hvm with hvm | hvm
    · have := hlt v (hsubf.subset hvm)
      simp only [logPush]
      omega
    · simp only [List.mem_singleton] at hvm
      simp only [logPush]
      omega
  · intro v hvm
    have := htlt v hvm
    simp only [logPush]
    omega
  · rw [hmap]
    intro v hvm
    rcases List.mem_append.mp hvm with hvm | hvm
    · exact hfresh v (hsubf.subset hvm)
    · simp only [List.mem_singleton] at hvm
      subst hvm
      intro hin
      exact absurd (htlt _ hin) (by omega)

theorem Inv_applyOp (s : Adapter) (op : Op) (tr : List Event) (h : Inv s tr) :
    Inv (applyOp s op).1 (tr ++ (applyOp s op).2) := by
  cases op with
  | logOp d o now outc now2 =>
    rcases Bool.eq_false_or_eq_true s.isInitialized with hi | hi
    · by_cases hb : s.maxBufferSize ≤ s.logBuffer.length + 1
      · have h2 := Inv_flushCore outc now2 (logPush d o now s) tr
          (Inv_logPush d o now s tr h)
        simpa [applyOp, log_flush_eq d o now outc now2 s hi hb] using h2
      · have h2 := Inv_logPush d o now s tr h
        simpa [applyOp, log_noflush_eq d o now outc now2 s hi hb] using h2
    · simpa [applyOp, log_notInit d o now outc now2 s hi] using h
  | flushOp outc now2 =>
    simpa [applyOp, flush] using Inv_flushCore outc now2 s tr h
  | shutdownOp outc now2 =>
    have h0 : Inv { s with flushTimer := false } tr := h
    have h2 := Inv_flushCore outc now2 { s with flushTimer := false } tr h0
    simpa [applyOp, shutdown, shutdownCore] using h2

theorem Inv_run (s : Adapter) (tr : List Event) (ops : List Op) (h : Inv s tr) :
    Inv (run s ops).1 (tr ++ (run s ops).2) := by
  induction ops generalizing s tr with
  | nil => simpa [run] using h
  | cons op ops ih =>
    simp only [run]
    have h2 := ih ((applyOp s op).1) (tr ++ (applyOp s op).2) (Inv_applyOp s op tr h)
    simpa [List.append_assoc] using h2

/-- Claim C9: in every sequential execution from a fresh adapter, every
completion is resolved at most once — the (ghost) serials of the resolution
events in the trace are pairwise distinct, so no pending completion that was
resolved with a batch handle is ever resolved again by a later flush. -/
theorem completions_resolve_at_most_once (cfg : Config) (ops : List Op) :
    (evSerials (run (initAdapter (mkAdapter cfg)) ops).2).Nodup := by
  have h0 : Inv (initAdapter (mkAdapter cfg)) [] := by
    refine ⟨?_, ?_, ?_, ?_, ?_⟩ <;>
      simp [Inv, initAdapter, mkAdapter, evSerials]
  have h := Inv_run (initAdapter (mkAdapter cfg)) [] ops h0
  simpa using h.2.2.2.2

/-- The record buffered by the single `log()` of the C2 witness run. -/
def eC2 : BufEntry := mkBufEntry "x" none 1 "temp-1-1" 0

/-- Witness for C2: a one-record run with a successful submit; its resolve
event is covered by the preceding successful submit of the batch `[eC2]`. -/
theorem completion_only_after_successful_submit_witness :
    ∃ payload r,
      Event.submitSuccess payload (mkResolved "j1" 2 eC2).id ∈
        [Event.submitSuccess [serializeRecord eC2] "j1"] ∧
      r ∈ payload ∧ r.data = (mkResolved "j1" 2 eC2).content ∧
      r.timestamp = (mkResolved "j1" 2 eC2).timestamp ∧
      r.options = (mkResolved "j1" 2 eC2).options :=
  (completion_only_after_successful_submit { maxBufferSize := some 1 }
    [Op.logOp "x" none 1 (some "j1") 2]
    [Event.submitSuccess [serializeRecord eC2] "j1"] [] 0 "temp-1-1"
    (mkResolved "j1" 2 eC2) 0 (mkAdapter {})).1 (by rfl)

end EigenDA
